import Mathlib

/-!
Shallow embedding of `run.py` (panopticon), a chat-logging agent, together with
proofs about its path-building, record-formatting and dispatch logic.

The embedding follows the Python source function by function:
* `clean_filename`       — run.py line 26-27
* `make_filename`        — run.py line 33-61
* `make_audit_filename`  — run.py line 67-82
* `make_message`         — run.py line 91-121
* `make_audit_ban`       — run.py line 128-159
* `make_audit`           — run.py line 162-194
* event handlers         — run.py line 207-283

Machine-level conventions: Python `str` is `String`/`List Char`; `bytes` is
`List Nat` (each < 256); a Python expression that can raise is embedded in
`Except String`, the error string naming the exception.  `run.py` only does
`from datetime import timezone`, so the bare name `datetime` (used by the
audit functions) and the names `IGNORE_GUILDS` and `utils` (used by the audit
handlers) are unbound at module level; name lookup is embedded explicitly via
`moduleGlobals` so that the resulting `NameError`s are visible in the model.
Naive `datetime` values are six calendar/clock fields; `astimezone(tz=None)`
depends on the host timezone and is abstracted as a function parameter `lz`,
and `datetime.datetime.utcnow()` as a parameter `now`.
-/

namespace Panopticon

/-- A naive Python `datetime.datetime` value: calendar date plus clock time. -/
structure PyDateTime where
  year : Nat
  month : Nat
  day : Nat
  hour : Nat
  minute : Nat
  second : Nat
deriving DecidableEq

/-- A guild (server): `guild.name`, `guild.id`. -/
structure Guild where
  name : String
  id : Nat
deriving DecidableEq

/-- A user/member: `user.name`, `user.discriminator`, `user.id`. -/
structure User where
  name : String
  discriminator : String
  id : Nat
deriving DecidableEq

/-- An attachment; `make_message` reads its `url` (run.py line 113). -/
structure Attachment where
  url : String
deriving DecidableEq

/-- The channel a message arrived on.  `make_filename` branches on
`type(message.channel)` being `discord.TextChannel`, `discord.DMChannel` or
`discord.GroupChannel` (run.py lines 39, 48, 55); any other channel type falls
through, which `other` represents.  A guild text channel determines
`message.guild`. -/
inductive Channel where
  | text (guild : Guild) (name : String) (id : Nat)
  | dm (user_name : String) (user_id : Nat)
  | group (name : String) (id : Nat)
  | other
deriving DecidableEq

/-- A message event object, with the fields `run.py` reads. -/
structure Message where
  id : Nat
  channel : Channel
  author : User
  created_at : PyDateTime
  edited_at : Option PyDateTime
  clean_content : String
  attachments : List Attachment
deriving DecidableEq

/-- Python `message.guild`: the guild of a guild text channel, `None` otherwise. -/
def Message.guild (m : Message) : Option Guild :=
  match m.channel with
  | .text g _ _ => some g
  | _ => none

/-- The configuration `config.yaml` keys that `run.py` reads on the event
path: `log_dir`, `use_localtime`, `ignore_servers`. -/
structure Config where
  log_dir : String
  use_localtime : Bool
  ignore_servers : List Nat
deriving DecidableEq

/-- The names bound at module level in `run.py`: the five imports
(line 9-14), `config` (line 17), the seven functions, `client` (line 204) and
the decorated handlers.  `IGNORE_GUILDS`, `datetime` and `utils` are used in
the file but never bound, so they are absent here. -/
def moduleGlobals : List String :=
  ["base64", "timezone", "os", "re", "discord", "yaml", "config",
   "clean_filename", "make_filename", "make_audit_filename", "make_message",
   "make_audit_ban", "make_audit", "write", "client",
   "on_message", "on_message_edit", "on_member_ban", "on_member_unban",
   "on_guild_available", "on_guild_unavailable", "on_guild_remove",
   "on_guild_add", "on_ready"]

/-- The message a CPython `NameError` carries. -/
def nameError (n : String) : String :=
  "NameError: name " ++ n ++ " is not defined"

/-- Evaluating a bare name against the module globals: succeeds when the name
is bound, raises `NameError` otherwise. -/
def lookupGlobal (n : String) : Except String Unit :=
  if n ∈ moduleGlobals then Except.ok () else Except.error (nameError n)

/-! Filename sanitizer (run.py line 26-27) -/

/-- Membership in the regex character class `[/\\:*?"<>|\x00-\x1f]` of
`clean_filename`: one of the nine listed characters, or a code point in the
range `\x00`–`\x1f`. -/
def charClassBad (c : Char) : Bool :=
  c == '/' || c == '\\' || c == ':' || c == '*' || c == '?' || c == '"' ||
    c == '<' || c == '>' || c == '|' || decide (c.toNat ≤ 0x1f)

/-- Embedding of `re.sub(pattern, '', s)` for a single-character-class pattern: scan the
string left to right, dropping every character the class matches. -/
def reSubRemove (p : Char → Bool) : List Char → List Char
  | [] => []
  | c :: cs => if p c then reSubRemove p cs else c :: reSubRemove p cs

/-- Embedding of `clean_filename` (run.py line 26-27):
`re.sub(r'[/\\:*?"<>|\x00-\x1f]', '', string)`. -/
def clean_filename (s : String) : String :=
  String.mk (reSubRemove charClassBad s.data)

/-- The removal predicate as the specification words it: a character in the
class `/ \ : * ? " < > |` or an ASCII control character 0x00 through 0x1F. -/
def specRemovable (c : Char) : Prop :=
  c = '/' ∨ c = '\\' ∨ c = ':' ∨ c = '*' ∨ c = '?' ∨ c = '"' ∨ c = '<' ∨
    c = '>' ∨ c = '|' ∨ c.toNat ≤ 0x1f

instance (c : Char) : Decidable (specRemovable c) := by
  unfold specRemovable; infer_instance

lemma charClassBad_iff (c : Char) : charClassBad c = true ↔ specRemovable c := by
  simp [charClassBad, specRemovable]
  tauto

lemma str_ext (a b : String) (h : a.data = b.data) : a = b := by
  cases a; cases b; cases h; rfl

lemma reSubRemove_eq_filter (p : Char → Bool) (l : List Char) :
    reSubRemove p l = l.filter (fun c => !p c) := by
  induction l with
  | nil => rfl
  | cons c cs ih =>
    by_cases h : p c <;> simp [reSubRemove, h, ih, List.filter_cons]

/-- Claim C3: `clean_filename` removes exactly the characters of the class
`/ \ : * ? " < > |` together with the control characters 0x00–0x1F, and keeps
every other character unchanged and in its original order: its output is the
filter of its input by the removal predicate of the spec (hence no truncation), and
is a sublist (subsequence) of the input.  The function is total by
construction. -/
theorem clean_filename_removes_exactly_spec_chars (s : String) :
    (clean_filename s).data = s.data.filter (fun c => !decide (specRemovable c)) ∧
    List.Sublist (clean_filename s).data s.data := by
  have hfil : (clean_filename s).data =
      s.data.filter (fun c => !decide (specRemovable c)) := by
    show reSubRemove charClassBad s.data = _
    rw [reSubRemove_eq_filter]
    apply List.filter_congr
    intro c _
    have := charClassBad_iff c
    by_cases h : specRemovable c
    · simp [h, this.mpr h]
    · simp only [h, decide_False]
      cases hb : charClassBad c
      · rfl
      · exact absurd (this.mp hb) h
  refine ⟨hfil, ?_⟩
  rw [hfil]
  exact List.filter_sublist _

/-- Claim C10: `clean_filename` is idempotent, and is the identity on strings
none of whose characters is removable. -/
theorem clean_filename_idempotent (s : String) :
    clean_filename (clean_filename s) = clean_filename s ∧
    ((∀ c ∈ s.data, ¬ specRemovable c) → clean_filename s = s) := by
  have heq : ∀ t : String,
      (clean_filename t).data = t.data.filter (fun c => !decide (specRemovable c)) :=
    fun t => (clean_filename_removes_exactly_spec_chars t).1
  constructor
  · apply str_ext
    rw [heq (clean_filename s), heq s, List.filter_filter]
    simp
  · intro hclean
    apply str_ext
    rw [heq s]
    apply List.filter_eq_self.mpr
    intro c hc
    simp [hclean c hc]

/-- Witness for C10 at a concrete clean string. -/
theorem clean_filename_idempotent_witness : clean_filename "general" = "general" :=
  (clean_filename_idempotent "general").2 (by decide)

/-! Timestamp formatting -/

/-- Decimal rendering of `n` left-padded with zeros to width `w`, as the
zero-padded `strftime` directives of CPython produce. -/
def zfill (w : Nat) (n : Nat) : String :=
  String.mk (List.replicate (w - (toString n).length) '0') ++ toString n

/-- Embedding of `time.strftime('%F')` (run.py lines 38, 69): the ISO date
`YYYY-MM-DD` of the calendar fields of the value. -/
def strftimeF (t : PyDateTime) : String :=
  zfill 4 t.year ++ "-" ++ zfill 2 t.month ++ "-" ++ zfill 2 t.day

/-- Embedding of `time.strftime('[%H:%M:%S]')` (run.py lines 103, 137, 171). -/
def strftimeHMS (t : PyDateTime) : String :=
  "[" ++ zfill 2 t.hour ++ ":" ++ zfill 2 t.minute ++ ":" ++ zfill 2 t.second ++ "]"

/-! Path builder (run.py line 33-61) -/

/-- The timestamp selection of run.py lines 34-37 (and again 96-99):
`message.edited_at` when set, else `message.created_at`. -/
def effective_time (m : Message) : PyDateTime :=
  match m.edited_at with
  | some t => t
  | none => m.created_at

/-- Embedding of `make_filename` (run.py line 33-61).  Branches on the channel type;
channel types outside the three recognized ones fall off the end of the
Python function, returning `None`. -/
def make_filename (cfg : Config) (m : Message) : Option String :=
  let time := effective_time m
  let timestamp := strftimeF time
  match m.channel with
  | .text g cname cid =>
    some (cfg.log_dir ++ "/" ++ clean_filename g.name ++ "-" ++ toString g.id ++
      "/#" ++ clean_filename cname ++ "-" ++ toString cid ++ "/" ++ timestamp ++ ".log")
  | .dm uname uid =>
    some (cfg.log_dir ++ "/DM/" ++ clean_filename uname ++ "-" ++ toString uid ++
      "/" ++ timestamp ++ ".log")
  | .group gname gid =>
    some (cfg.log_dir ++ "/DM/" ++ clean_filename gname ++ "-" ++ toString gid ++
      "/" ++ timestamp ++ ".log")
  | .other => none

/-- Claim C1: whenever `make_filename` yields a path, the filename component of
that path is the `YYYY-MM-DD` calendar date of the effective timestamp, which
is the edit time when present and the creation time otherwise; in particular
the path buckets by creation date when `edited_at` is unset and by edit date
when it is set. -/
theorem make_filename_buckets_by_effective_date (cfg : Config) (m : Message)
    (p : String) (h : make_filename cfg m = some p) :
    (∃ pre, p = pre ++ "/" ++ strftimeF (effective_time m) ++ ".log") ∧
    (m.edited_at = none → effective_time m = m.created_at) ∧
    (∀ t, m.edited_at = some t → effective_time m = t) := by
  refine ⟨?_, ?_, ?_⟩
  · cases hc : m.channel with
    | text g cname cid =>
      refine ⟨cfg.log_dir ++ "/" ++ clean_filename g.name ++ "-" ++ toString g.id ++
        "/#" ++ clean_filename cname ++ "-" ++ toString cid, ?_⟩
      simp only [make_filename, hc] at h
      injection h with h
      rw [← h]
    | dm uname uid =>
      refine ⟨cfg.log_dir ++ "/DM/" ++ clean_filename uname ++ "-" ++ toString uid, ?_⟩
      simp only [make_filename, hc] at h
      injection h with h
      rw [← h]
    | group gname gid =>
      refine ⟨cfg.log_dir ++ "/DM/" ++ clean_filename gname ++ "-" ++ toString gid, ?_⟩
      simp only [make_filename, hc] at h
      injection h with h
      rw [← h]
    | other =>
      simp [make_filename, hc] at h
  · intro he; simp [effective_time, he]
  · intro t he; simp [effective_time, he]

/-- A concrete guild-text message, edited across a day boundary: created
2020-05-01 23:59:59, edited 2020-05-02 00:00:05. -/
def sampleEditedMsg : Message :=
  { id := 1, channel := Channel.text ⟨"g", 7⟩ "general" 9,
    author := ⟨"u", "0001", 5⟩,
    created_at := ⟨2020, 5, 1, 23, 59, 59⟩,
    edited_at := some ⟨2020, 5, 2, 0, 0, 5⟩,
    clean_content := "hi", attachments := [] }

/-- Witness for C1: the path of `sampleEditedMsg` buckets by its edit date. -/
theorem make_filename_buckets_by_effective_date_witness :
    ∃ pre, "logs/g-7/#general-9/2020-05-02.log" =
      pre ++ "/" ++ strftimeF (effective_time sampleEditedMsg) ++ ".log" :=
  (make_filename_buckets_by_effective_date ⟨"logs", false, []⟩ sampleEditedMsg
    "logs/g-7/#general-9/2020-05-02.log" (by decide)).1

/-! Message record formatter (run.py line 91-121) -/

/-- The RFC 4648 base64 alphabet. -/
def b64alphabet : List Char :=
  "ABCDEFGHIJKLMNOPQRSTUVWXYZabcdefghijklmnopqrstuvwxyz0123456789+/".data

/-- One base64 digit. -/
def b64char (n : Nat) : Char := b64alphabet.getD n 'A'

/-- Embedding of `base64.b64encode` over a byte list: groups of three bytes become four
digits; a trailing group of two or one bytes is padded with `=`. -/
def b64encode : List Nat → List Char
  | b0 :: b1 :: b2 :: rest =>
    b64char (b0 / 4) :: b64char (b0 % 4 * 16 + b1 / 16) ::
      b64char (b1 % 16 * 4 + b2 / 64) :: b64char (b2 % 64) :: b64encode rest
  | [b0, b1] => [b64char (b0 / 4), b64char (b0 % 4 * 16 + b1 / 16),
      b64char (b1 % 16 * 4), '=']
  | [b0] => [b64char (b0 / 4), b64char (b0 % 4 * 16), '=', '=']
  | [] => []

/-- Embedding of the call `int(x).to_bytes` with length `len` and little
byte order (run.py line 94): the `len`
little-endian base-256 digits of `x`; raises `OverflowError` when `x` does
not fit. -/
def int_to_bytes_le (len x : Nat) : Except String (List Nat) :=
  if x < 256 ^ len then
    Except.ok ((List.range len).map fun i => x / 256 ^ i % 256)
  else
    Except.error "OverflowError: int too big to convert"

/-- Specification-side decoder: the value a little-endian byte list denotes. -/
def nat_of_bytes_le (bs : List Nat) : Nat :=
  bs.foldr (fun b acc => b + 256 * acc) 0

lemma nat_of_bytes_le_cons (b : Nat) (bs : List Nat) :
    nat_of_bytes_le (b :: bs) = b + 256 * nat_of_bytes_le bs := rfl

lemma nat_of_bytes_le_range_map (n x : Nat) (h : x < 256 ^ n) :
    nat_of_bytes_le ((List.range n).map fun i => x / 256 ^ i % 256) = x := by
  induction n generalizing x with
  | zero =>
    simp only [List.range_zero, List.map_nil]
    have : x = 0 := by simpa using h
    simp [nat_of_bytes_le, this]
  | succ n ih =>
    rw [List.range_succ_eq_map, List.map_cons, List.map_map]
    have hmap : (List.range n).map ((fun i => x / 256 ^ i % 256) ∘ Nat.succ) =
        (List.range n).map fun i => x / 256 / 256 ^ i % 256 := by
      apply List.map_congr_left
      intro a _
      simp only [Function.comp]
      rw [Nat.div_div_eq_div_mul, ← Nat.pow_succ']
    rw [hmap, nat_of_bytes_le_cons]
    have hx : x / 256 < 256 ^ n := by
      rw [Nat.div_lt_iff_lt_mul (by norm_num : 0 < 256)]
      rw [← Nat.pow_succ]
      exact h
    rw [ih (x / 256) hx]
    simp only [Nat.pow_zero, Nat.div_one]
    exact Nat.mod_add_div x 256

/-- The bracketed identifier token of run.py lines 92-95: `[` — or `[E:` when
the message has an edit timestamp — then the base64 of the 8-byte
little-endian message id, then `]`. -/
def message_id_token (m : Message) : Except String String := do
  let bytes ← int_to_bytes_le 8 m.id
  pure ((if m.edited_at.isSome then "[E:" else "[") ++
    String.mk (b64encode bytes) ++ "]")

/-- The displayed `[HH:MM:SS]` timestamp of run.py lines 96-103: the effective
time, converted through the host-timezone map `lz` when `use_localtime` is
configured. -/
def display_timestamp (cfg : Config) (lz : PyDateTime → PyDateTime)
    (m : Message) : String :=
  let time := effective_time m
  let time := if cfg.use_localtime then lz time else time
  strftimeHMS time

/-- The `<name#discriminator>` author token of run.py lines 104-107. -/
def author_token (m : Message) : String :=
  "<" ++ m.author.name ++ "#" ++ m.author.discriminator ++ ">"

/-- Embedding of the replace call on `message.clean_content` of run.py
line 108: each newline becomes a newline followed by the marker `(newline) `,
character by character. -/
def py_replace_nl : List Char → List Char
  | [] => []
  | c :: cs =>
    if c = '\n' then '\n' :: ("(newline) ".data ++ py_replace_nl cs)
    else c :: py_replace_nl cs

/-- The content portion of a formatted message record. -/
def content_part (m : Message) : String :=
  String.mk (py_replace_nl m.clean_content.data)

lemma py_replace_nl_cons (c : Char) (cs : List Char) :
    py_replace_nl (c :: cs) =
      if c = '\n' then '\n' :: ("(newline) ".data ++ py_replace_nl cs)
      else c :: py_replace_nl cs := rfl

/-- The attachments portion of run.py lines 110-113: starting from the empty
string, append a newline, the marker `(attach) ` and the url of each
attachment, in list order. -/
def attachments_part (m : Message) : String :=
  m.attachments.foldl (fun acc a => acc ++ "\n(attach) " ++ a.url) ""

/-- Embedding of `make_message` (run.py line 91-121): the five parts joined
by single spaces, as the five-placeholder format string of line 115 does. -/
def make_message (cfg : Config) (lz : PyDateTime → PyDateTime)
    (m : Message) : Except String String := do
  let idtok ← message_id_token m
  pure (idtok ++ " " ++ display_timestamp cfg lz m ++ " " ++ author_token m ++
    " " ++ content_part m ++ " " ++ attachments_part m)

/-- Claim C2: the path `make_filename` chooses is independent of the
`use_localtime` flag: two configurations equal except for that flag give
character-for-character identical paths on every message — while the flag
does change the `[HH:MM:SS]` timestamp displayed inside the formatted record,
shown by an explicit instance on the displayed-timestamp component. -/
theorem make_filename_independent_of_use_localtime :
    (∀ (d : String) (ig : List Nat) (b₁ b₂ : Bool) (m : Message),
      make_filename ⟨d, b₁, ig⟩ m = make_filename ⟨d, b₂, ig⟩ m) ∧
    (∃ (d : String) (ig : List Nat) (lz : PyDateTime → PyDateTime)
        (m : Message),
      display_timestamp ⟨d, true, ig⟩ lz m ≠ display_timestamp ⟨d, false, ig⟩ lz m) := by
  constructor
  · intro d ig b₁ b₂ m
    rfl
  · refine ⟨"logs", [], fun _ => ⟨2020, 5, 1, 13, 0, 0⟩, sampleEditedMsg, ?_⟩
    decide

/-- Claim C4: the bracketed token opening a formatted message record is the
64-bit message identifier encoded little-endian into exactly 8 bytes and then
base64-encoded, prefixed with `E:` inside the brackets exactly when the
message carries an edit timestamp; decoding the bytes little-endian recovers
the identifier, and identifier `1` (bytes `01 00 00 00 00 00 00 00`) yields
the fixed token `AQAAAAAAAAA=`. -/
theorem make_message_id_token_base64_le (cfg : Config)
    (lz : PyDateTime → PyDateTime) (m : Message) (h : m.id < 2 ^ 64) :
    ∃ bytes rest,
      int_to_bytes_le 8 m.id = Except.ok bytes ∧
      bytes.length = 8 ∧
      nat_of_bytes_le bytes = m.id ∧
      make_message cfg lz m =
        Except.ok (((if m.edited_at.isSome then "[E:" else "[") ++
          String.mk (b64encode bytes) ++ "]") ++ " " ++ rest) ∧
      int_to_bytes_le 8 1 = Except.ok [1, 0, 0, 0, 0, 0, 0, 0] ∧
      String.mk (b64encode [1, 0, 0, 0, 0, 0, 0, 0]) = "AQAAAAAAAAA=" := by
  have h' : m.id < 256 ^ 8 := by
    have : (256 : Nat) ^ 8 = 2 ^ 64 := by norm_num
    rw [this]; exact h
  have hok : int_to_bytes_le 8 m.id =
      Except.ok ((List.range 8).map fun i => m.id / 256 ^ i % 256) := by
    unfold int_to_bytes_le
    rw [if_pos h']
  have hid : message_id_token m =
      Except.ok ((if m.edited_at.isSome then "[E:" else "[") ++
        String.mk (b64encode ((List.range 8).map fun i => m.id / 256 ^ i % 256)) ++ "]") := by
    simp [message_id_token, hok]
  refine ⟨(List.range 8).map fun i => m.id / 256 ^ i % 256,
    display_timestamp cfg lz m ++ " " ++ author_token m ++ " " ++
      content_part m ++ " " ++ attachments_part m, hok, by simp, ?_, ?_, by rfl, by rfl⟩
  · exact nat_of_bytes_le_range_map 8 m.id h'
  · simp only [make_message, hid]
    show Except.ok _ = Except.ok _
    congr 1
    simp [String.append_assoc]

/-- Witness for C4 at the concrete edited message with identifier 1. -/
theorem make_message_id_token_base64_le_witness :
    ∃ bytes rest,
      int_to_bytes_le 8 sampleEditedMsg.id = Except.ok bytes ∧
      bytes.length = 8 ∧
      nat_of_bytes_le bytes = sampleEditedMsg.id ∧
      make_message ⟨"logs", false, []⟩ (fun t => t) sampleEditedMsg =
        Except.ok (((if sampleEditedMsg.edited_at.isSome then "[E:" else "[") ++
          String.mk (b64encode bytes) ++ "]") ++ " " ++ rest) ∧
      int_to_bytes_le 8 1 = Except.ok [1, 0, 0, 0, 0, 0, 0, 0] ∧
      String.mk (b64encode [1, 0, 0, 0, 0, 0, 0, 0]) = "AQAAAAAAAAA=" :=
  make_message_id_token_base64_le ⟨"logs", false, []⟩ (fun t => t)
    sampleEditedMsg (by decide)

/-! Physical lines of a record.

`split_nl` cuts a character list at every `'\n'`; `join_nl` is its inverse.
They give meaning to "physical line" in the claims about multi-line
records. -/

/-- The physical lines of a character list: split at every newline. -/
def split_nl : List Char → List (List Char)
  | [] => [[]]
  | c :: cs =>
    if c = '\n' then [] :: split_nl cs
    else
      match split_nl cs with
      | [] => [[c]]
      | l :: ls => (c :: l) :: ls

/-- Rejoin physical lines with newlines. -/
def join_nl : List (List Char) → List Char
  | [] => []
  | [l] => l
  | l :: ls => l ++ '\n' :: join_nl ls

lemma split_nl_ne_nil (l : List Char) : split_nl l ≠ [] := by
  induction l with
  | nil => simp [split_nl]
  | cons c cs ih =>
    by_cases h : c = '\n'
    · simp [split_nl, h]
    · simp only [split_nl, if_neg h]
      cases hs : split_nl cs with
      | nil => simp
      | cons a as => simp

lemma split_nl_eq_cons (l : List Char) :
    split_nl l = (split_nl l).headI :: (split_nl l).tail := by
  cases hs : split_nl l with
  | nil => exact absurd hs (split_nl_ne_nil l)
  | cons a as => rfl

lemma split_nl_cons_nl (cs : List Char) :
    split_nl ('\n' :: cs) = [] :: split_nl cs := by
  simp [split_nl]

lemma split_nl_cons_not_nl (c : Char) (h : c ≠ '\n') (cs : List Char) :
    split_nl (c :: cs) = (c :: (split_nl cs).headI) :: (split_nl cs).tail := by
  simp only [split_nl, if_neg h]
  cases hs : split_nl cs with
  | nil => exact absurd hs (split_nl_ne_nil cs)
  | cons a as => rfl

lemma headI_append_of_ne_nil {α : Type} [Inhabited α] (l l' : List α)
    (h : l ≠ []) : (l ++ l').headI = l.headI := by
  cases l with
  | nil => exact absurd rfl h
  | cons a as => rfl

lemma tail_append_of_ne_nil {α : Type} (l l' : List α) (h : l ≠ []) :
    (l ++ l').tail = l.tail ++ l' := by
  cases l with
  | nil => exact absurd rfl h
  | cons a as => rfl

/-- Splitting across an explicit newline splits the two sides separately. -/
lemma split_nl_append_nl (x y : List Char) :
    split_nl (x ++ '\n' :: y) = split_nl x ++ split_nl y := by
  induction x with
  | nil => simp [split_nl_cons_nl, split_nl]
  | cons c cs ih =>
    by_cases h : c = '\n'
    · subst h
      simp only [List.cons_append, split_nl_cons_nl, ih]
    · simp only [List.cons_append, split_nl_cons_not_nl c h, ih]
      rw [headI_append_of_ne_nil _ _ (split_nl_ne_nil cs),
        tail_append_of_ne_nil _ _ (split_nl_ne_nil cs)]

lemma split_nl_no_nl (l : List Char) (h : '\n' ∉ l) : split_nl l = [l] := by
  induction l with
  | nil => rfl
  | cons c cs ih =>
    have hc : c ≠ '\n' := fun hc => h (hc ▸ List.mem_cons_self c cs)
    have hcs : '\n' ∉ cs := fun hm => h (List.mem_cons_of_mem c hm)
    rw [split_nl_cons_not_nl c hc, ih hcs]
    rfl

/-- Prepending a newline-free segment extends the first line only. -/
lemma split_nl_append_no_nl (a x : List Char) (h : '\n' ∉ a) :
    split_nl (a ++ x) = (a ++ (split_nl x).headI) :: (split_nl x).tail := by
  induction a with
  | nil => simpa using split_nl_eq_cons x
  | cons c cs ih =>
    have hc : c ≠ '\n' := fun hc => h (hc ▸ List.mem_cons_self c cs)
    have hcs : '\n' ∉ cs := fun hm => h (List.mem_cons_of_mem c hm)
    rw [List.cons_append, split_nl_cons_not_nl c hc, ih hcs]
    rfl

lemma join_nl_split_nl (l : List Char) : join_nl (split_nl l) = l := by
  induction l with
  | nil => rfl
  | cons c cs ih =>
    by_cases h : c = '\n'
    · subst h
      rw [split_nl_cons_nl]
      rw [split_nl_eq_cons cs] at ih ⊢
      simpa [join_nl] using ih
    · rw [split_nl_cons_not_nl c h]
      rw [split_nl_eq_cons cs] at ih
      cases ht : (split_nl cs).tail with
      | nil =>
        rw [ht] at ih
        simpa [join_nl] using ih
      | cons a as =>
        rw [ht] at ih
        simpa [join_nl] using ih

lemma split_nl_length (l : List Char) :
    (split_nl l).length = l.count '\n' + 1 := by
  induction l with
  | nil => rfl
  | cons c cs ih =>
    by_cases h : c = '\n'
    · subst h
      rw [split_nl_cons_nl]
      simp [ih, List.count_cons]
    · rw [split_nl_cons_not_nl c h]
      rw [split_nl_eq_cons cs] at ih
      simp only [List.length_cons] at ih ⊢
      rw [List.count_cons]
      simp [h, Ne.symm h] at ih ⊢
      omega

/-- The line structure `py_replace_nl` produces: the first line of the input,
then each later line of the input prefixed with `(newline) `. -/
lemma split_nl_py_replace (s : List Char) :
    split_nl (py_replace_nl s) =
      (split_nl s).headI ::
        ((split_nl s).tail).map (fun l => "(newline) ".data ++ l) := by
  induction s with
  | nil => rfl
  | cons c cs ih =>
    rw [py_replace_nl_cons]
    by_cases h : c = '\n'
    · subst h
      rw [if_pos rfl]
      rw [split_nl_cons_nl,
        split_nl_append_no_nl "(newline) ".data _ (by decide), ih]
      rw [split_nl_cons_nl]
      rw [split_nl_eq_cons cs]
      simp
    · rw [if_neg h]
      rw [split_nl_cons_not_nl c h, ih, split_nl_cons_not_nl c h]
      rfl

/-- Claim C5: the content portion of a formatted message replaces each of the
`k` literal newlines of the clean content by a newline followed by the marker
`(newline) `: its physical lines are the first line of the content followed by
every later content line prefixed with the marker, it spans `k + 1` physical
lines, and stripping the 10-character marker from each continuation line and
rejoining recovers the original content with its line breaks. -/
theorem make_message_content_newline_marker (m : Message) :
    split_nl (content_part m).data =
      (split_nl m.clean_content.data).headI ::
        ((split_nl m.clean_content.data).tail).map
          (fun l => "(newline) ".data ++ l) ∧
    (split_nl (content_part m).data).length =
      m.clean_content.data.count '\n' + 1 ∧
    join_nl ((split_nl (content_part m).data).headI ::
        ((split_nl (content_part m).data).tail).map (fun l => l.drop 10)) =
      m.clean_content.data := by
  have hdata : (content_part m).data = py_replace_nl m.clean_content.data := rfl
  have h1 := split_nl_py_replace m.clean_content.data
  rw [hdata]
  refine ⟨h1, ?_, ?_⟩
  · rw [h1]
    have hl := split_nl_length m.clean_content.data
    rw [split_nl_eq_cons m.clean_content.data] at hl
    simp only [List.length_cons, List.length_map] at hl ⊢
    omega
  · rw [h1]
    simp only [List.headI_cons, List.tail_cons, List.map_map]
    have hmap : ((split_nl m.clean_content.data).tail).map
        ((fun l => l.drop 10) ∘ (fun l => "(newline) ".data ++ l)) =
        ((split_nl m.clean_content.data).tail).map id := by
      apply List.map_congr_left
      intro a _
      simp only [Function.comp, id]
      have hlen : ("(newline) ".data).length = 10 := by decide
      rw [← hlen, List.drop_left]
    rw [hmap, List.map_id, ← split_nl_eq_cons, join_nl_split_nl]

lemma except_ok_bind {e a b : Type} (x : a) (f : a → Except e b) :
    (Except.ok x >>= f) = f x := rfl

lemma except_error_bind {e a b : Type} (err : e) (f : a → Except e b) :
    ((Except.error err : Except e a) >>= f) = Except.error err := rfl

lemma attachments_foldl_data (init : String) (as : List Attachment) :
    (as.foldl (fun acc a => acc ++ "\n(attach) " ++ a.url) init).data =
      init.data ++
        (as.map (fun a => '\n' :: ("(attach) " ++ a.url).data)).flatten := by
  induction as generalizing init with
  | nil => simp
  | cons a rest ih =>
    rw [List.foldl_cons, ih, List.map_cons, List.flatten_cons]
    simp [String.data_append, List.append_assoc]

lemma attachments_part_data (m : Message) :
    (attachments_part m).data =
      (m.attachments.map (fun a => '\n' :: ("(attach) " ++ a.url).data)).flatten := by
  show (m.attachments.foldl (fun acc a => acc ++ "\n(attach) " ++ a.url) "").data = _
  rw [attachments_foldl_data]
  rfl

lemma split_nl_append_attach (q : List Char) (as : List Attachment)
    (h : ∀ a ∈ as, '\n' ∉ a.url.data) :
    split_nl (q ++ (as.map (fun a => '\n' :: ("(attach) " ++ a.url).data)).flatten) =
      split_nl q ++ as.map (fun a => ("(attach) " ++ a.url).data) := by
  induction as generalizing q with
  | nil => simp
  | cons a rest ih =>
    have hline : '\n' ∉ ("(attach) " ++ a.url).data := by
      rw [String.data_append]
      intro hmem
      rcases List.mem_append.mp hmem with hl | hr
      · exact absurd hl (by decide)
      · exact absurd hr (h a (List.mem_cons_self a rest))
    rw [List.map_cons, List.flatten_cons]
    have hassoc : q ++ (('\n' :: ("(attach) " ++ a.url).data) ++
        (rest.map (fun a => '\n' :: ("(attach) " ++ a.url).data)).flatten) =
        q ++ '\n' :: (("(attach) " ++ a.url).data ++
          (rest.map (fun a => '\n' :: ("(attach) " ++ a.url).data)).flatten) := by
      simp
    rw [hassoc, split_nl_append_nl,
      ih _ (fun a ha => h a (List.mem_cons_of_mem _ ha)),
      split_nl_no_nl _ hline]
    simp

/-- Claim C6: the physical lines of a successfully formatted message are the lines of
the primary part (identifier token, displayed timestamp, author, content and
the trailing separator space) followed by exactly one `(attach) <url>` line
per attachment, in attachment-list order; with no attachments the record is
the primary part alone, with no such line. -/
theorem make_message_attachment_lines (cfg : Config)
    (lz : PyDateTime → PyDateTime) (m : Message)
    (h : ∀ a ∈ m.attachments, '\n' ∉ a.url.data) (s : String)
    (hs : make_message cfg lz m = Except.ok s) :
    ∃ idtok, message_id_token m = Except.ok idtok ∧
      split_nl s.data =
        split_nl (idtok ++ " " ++ display_timestamp cfg lz m ++ " " ++
          author_token m ++ " " ++ content_part m ++ " ").data ++
          m.attachments.map (fun a => ("(attach) " ++ a.url).data) ∧
      (m.attachments = [] →
        s = idtok ++ " " ++ display_timestamp cfg lz m ++ " " ++
          author_token m ++ " " ++ content_part m ++ " ") := by
  cases hid : message_id_token m with
  | error e =>
    rw [make_message, hid] at hs
    rw [except_error_bind] at hs
    exact Except.noConfusion hs
  | ok idtok =>
    rw [make_message, hid] at hs
    rw [except_ok_bind] at hs
    injection hs with hs
    refine ⟨idtok, rfl, ?_, ?_⟩
    · rw [← hs, String.data_append, attachments_part_data,
        split_nl_append_attach _ _ h]
    · intro hnil
      rw [← hs]
      apply str_ext
      simp [String.data_append, attachments_part, hnil]

/-- A concrete guild-text message with two attachments. -/
def sampleAttachMsg : Message :=
  { id := 1, channel := Channel.text ⟨"g", 7⟩ "general" 9,
    author := ⟨"u", "0001", 5⟩,
    created_at := ⟨2020, 5, 1, 12, 34, 56⟩, edited_at := none,
    clean_content := "hi",
    attachments := [⟨"http://a"⟩, ⟨"http://b"⟩] }

/-- Witness for C6 at a message with two attachments. -/
theorem make_message_attachment_lines_witness :
    ∃ idtok, message_id_token sampleAttachMsg = Except.ok idtok ∧
      split_nl ("[AQAAAAAAAAA=] [12:34:56] <u#0001> hi \n(attach) http://a\n(attach) http://b" : String).data =
        split_nl (idtok ++ " " ++
          display_timestamp ⟨"logs", false, []⟩ (fun t => t) sampleAttachMsg ++ " " ++
          author_token sampleAttachMsg ++ " " ++ content_part sampleAttachMsg ++ " ").data ++
          sampleAttachMsg.attachments.map (fun a => ("(attach) " ++ a.url).data) ∧
      (sampleAttachMsg.attachments = [] →
        "[AQAAAAAAAAA=] [12:34:56] <u#0001> hi \n(attach) http://a\n(attach) http://b" =
          idtok ++ " " ++
            display_timestamp ⟨"logs", false, []⟩ (fun t => t) sampleAttachMsg ++ " " ++
            author_token sampleAttachMsg ++ " " ++ content_part sampleAttachMsg ++ " ") :=
  make_message_attachment_lines ⟨"logs", false, []⟩ (fun t => t) sampleAttachMsg
    (by decide) _ (by rfl)

/-! Audit path builder and audit record formatters (run.py line 67-82 and
128-194).  Each of these functions begins with
`time = datetime.datetime.utcnow()`; `datetime` is not a module global
(run.py imports only `timezone` from the datetime module), so that first
statement raises `NameError` before anything else runs.  The remainder of
each body is translated anyway, faithful to the source, with the clock value
passed as `now`. -/

/-- Embedding of `make_audit_filename` (run.py line 67-82): audit log path for
an event, the root `AUDIT` bucket for guild add/remove and the per-guild
`AUDIT` bucket otherwise — guarded by the evaluation of the unbound name
`datetime` on line 68. -/
def make_audit_filename (cfg : Config) (now : PyDateTime) (event : String)
    (guild : Guild) : Except String String := do
  lookupGlobal "datetime"
  let timestamp := strftimeF now
  if event == "on_guild_add" || event == "on_guild_remove" then
    pure (cfg.log_dir ++ "/AUDIT/" ++ timestamp ++ ".log")
  else
    pure (cfg.log_dir ++ "/" ++ clean_filename guild.name ++ "-" ++
      toString guild.id ++ "/AUDIT/" ++ timestamp ++ ".log")

/-- Embedding of `make_audit_ban` (run.py line 128-159): ban/unban audit line,
`None` for other event tags — guarded by the evaluation of the unbound name
`datetime` on line 132.  The `guild` parameter is accepted and unused, as in
the source. -/
def make_audit_ban (cfg : Config) (lz : PyDateTime → PyDateTime)
    (now : PyDateTime) (event : String) (guild : Guild) (user : User) :
    Except String (Option String) := do
  lookupGlobal "datetime"
  let time := if cfg.use_localtime then lz now else now
  let timestamp := strftimeHMS time
  match (if event == "on_member_ban" then some "[BAN]"
      else if event == "on_member_unban" then some "[UNBAN]"
      else none) with
  | none => pure none
  | some ty =>
    pure (some (timestamp ++ " " ++ ty ++ " " ++ "<User:" ++ user.name ++
      "#" ++ user.discriminator ++ ">(ID:" ++ toString user.id ++ ")"))

/-- Embedding of `make_audit` (run.py line 162-194): guild
availability/add/remove audit line, `None` for other event tags — guarded by
the evaluation of the unbound name `datetime` on line 166. -/
def make_audit (cfg : Config) (lz : PyDateTime → PyDateTime)
    (now : PyDateTime) (event : String) (guild : Guild) :
    Except String (Option String) := do
  lookupGlobal "datetime"
  let time := if cfg.use_localtime then lz now else now
  let timestamp := strftimeHMS time
  match (if event == "on_guild_unavailable" then some "[GUILD OFFLINE]"
      else if event == "on_guild_available" then some "[GUILD ONLINE]"
      else if event == "on_guild_remove" then some "[GUILD REMOVED/BANNED]"
      else if event == "on_guild_add" then some "[GUILD ADDED]"
      else none) with
  | none => pure none
  | some ty =>
    pure (some (timestamp ++ " " ++ ty ++ " " ++ "<Guild:" ++ guild.name ++
      ">(ID:" ++ toString guild.id ++ ")"))

/-! Event dispatcher (run.py line 207-283).  The observable behaviour of a
handler is either an uncaught exception or the list of effects it performed. -/

/-- An observable side effect of a handler: a file append (`write`) or a
console `print`. -/
inductive Effect where
  | write (path : String) (line : String)
  | consoleOut (line : String)
deriving DecidableEq

/-- The guard `message.guild and message.guild.id in config['ignore_servers']`
of run.py lines 209 and 218. -/
def guild_ignored (cfg : Config) (g : Option Guild) : Bool :=
  match g with
  | some g => decide (g.id ∈ cfg.ignore_servers)
  | none => false

/-- Embedding of `on_message` (run.py line 207-214): drop silently when the
guild is ignored, else build the path and the record, append, and print.
A `None` path (unrecognized channel) would make `write` raise `TypeError`
inside `os.path.dirname`. -/
def on_message (cfg : Config) (lz : PyDateTime → PyDateTime) (m : Message) :
    Except String (List Effect) :=
  if guild_ignored cfg m.guild then pure []
  else do
    let filename? := make_filename cfg m
    let string ← make_message cfg lz m
    match filename? with
    | some f => pure [Effect.write f string, Effect.consoleOut string]
    | none =>
      Except.error "TypeError: expected str, bytes or os.PathLike object, not NoneType"

/-- Embedding of `on_message_edit` (run.py line 216-223): identical to
`on_message` on the post-edit message; the pre-edit message is ignored. -/
def on_message_edit (cfg : Config) (lz : PyDateTime → PyDateTime)
    (old m : Message) : Except String (List Effect) :=
  if guild_ignored cfg m.guild then pure []
  else do
    let filename? := make_filename cfg m
    let string ← make_message cfg lz m
    match filename? with
    | some f => pure [Effect.write f string, Effect.consoleOut string]
    | none =>
      Except.error "TypeError: expected str, bytes or os.PathLike object, not NoneType"

/-- Embedding of `on_member_ban` (run.py line 226-233).  Its guard is
`if guild and guild.id in IGNORE_GUILDS:`; the guild object is truthy, so
Python evaluates `IGNORE_GUILDS`, a name `run.py` never binds — the
configured ignore set is named `config['ignore_servers']` — and raises
`NameError` before any membership test, path or record is built.  The
continuation after the guard is translated for completeness. -/
def on_member_ban (cfg : Config) (lz : PyDateTime → PyDateTime)
    (now : PyDateTime) (guild : Guild) (member : User) :
    Except String (List Effect) := do
  lookupGlobal "IGNORE_GUILDS"
  let filename ← make_audit_filename cfg now "on_member_ban" guild
  let string? ← make_audit_ban cfg lz now "on_member_ban" guild member
  match string? with
  | some s => pure [Effect.write filename s]
  | none => Except.error "TypeError: can only concatenate str"

/-- Embedding of `on_member_unban` (run.py line 236-243); same unbound
`IGNORE_GUILDS` guard as `on_member_ban`. -/
def on_member_unban (cfg : Config) (lz : PyDateTime → PyDateTime)
    (now : PyDateTime) (guild : Guild) (user : User) :
    Except String (List Effect) := do
  lookupGlobal "IGNORE_GUILDS"
  let filename ← make_audit_filename cfg now "on_member_unban" guild
  let string? ← make_audit_ban cfg lz now "on_member_unban" guild user
  match string? with
  | some s => pure [Effect.write filename s]
  | none => Except.error "TypeError: can only concatenate str"

/-- Embedding of `on_guild_available` (run.py line 246-253); same unbound
`IGNORE_GUILDS` guard. -/
def on_guild_available (cfg : Config) (lz : PyDateTime → PyDateTime)
    (now : PyDateTime) (guild : Guild) : Except String (List Effect) := do
  lookupGlobal "IGNORE_GUILDS"
  let filename ← make_audit_filename cfg now "on_guild_available" guild
  let string? ← make_audit cfg lz now "on_guild_available" guild
  match string? with
  | some s => pure [Effect.write filename s]
  | none => Except.error "TypeError: can only concatenate str"

/-- Embedding of `on_guild_unavailable` (run.py line 255-263); same unbound
`IGNORE_GUILDS` guard, and the continuation additionally evaluates the
unbound name `utils` on line 260. -/
def on_guild_unavailable (cfg : Config) (lz : PyDateTime → PyDateTime)
    (now : PyDateTime) (guild : Guild) : Except String (List Effect) := do
  lookupGlobal "IGNORE_GUILDS"
  lookupGlobal "utils"
  let filename ← make_audit_filename cfg now "on_guild_unavailable" guild
  let string? ← make_audit cfg lz now "on_guild_unavailable" guild
  match string? with
  | some s => pure [Effect.write filename s]
  | none => Except.error "TypeError: can only concatenate str"

/-- Embedding of `on_guild_remove` (run.py line 266-273); same unbound
`IGNORE_GUILDS` guard. -/
def on_guild_remove (cfg : Config) (lz : PyDateTime → PyDateTime)
    (now : PyDateTime) (guild : Guild) : Except String (List Effect) := do
  lookupGlobal "IGNORE_GUILDS"
  let filename ← make_audit_filename cfg now "on_guild_remove" guild
  let string? ← make_audit cfg lz now "on_guild_remove" guild
  match string? with
  | some s => pure [Effect.write filename s]
  | none => Except.error "TypeError: can only concatenate str"

/-- Embedding of `on_guild_add` (run.py line 276-283); same unbound
`IGNORE_GUILDS` guard. -/
def on_guild_add (cfg : Config) (lz : PyDateTime → PyDateTime)
    (now : PyDateTime) (guild : Guild) : Except String (List Effect) := do
  lookupGlobal "IGNORE_GUILDS"
  let filename ← make_audit_filename cfg now "on_guild_add" guild
  let string? ← make_audit cfg lz now "on_guild_add" guild
  match string? with
  | some s => pure [Effect.write filename s]
  | none => Except.error "TypeError: can only concatenate str"

/-- Claim C7 fails on the code: an ignored-guild message or edit is indeed
dropped with no write and no console output, but the audit handlers never
consult the configured ignore set at all — their guard evaluates the unbound
name `IGNORE_GUILDS` and raises `NameError` for every guild-carrying
ban/unban/availability/add/remove event, ignored or not, instead of dropping
the event silently.  Evaluated here at a guild (id 42) that is in the
configured ignore set. -/
theorem ignored_guild_audit_handlers_raise_nameerror :
    on_message ⟨"logs", false, [42]⟩ (fun t => t)
      { id := 1, channel := Channel.text ⟨"g", 42⟩ "general" 9,
        author := ⟨"u", "0001", 5⟩, created_at := ⟨2020, 5, 1, 0, 0, 0⟩,
        edited_at := none, clean_content := "hi", attachments := [] } =
      Except.ok [] ∧
    on_message_edit ⟨"logs", false, [42]⟩ (fun t => t)
      { id := 1, channel := Channel.text ⟨"g", 42⟩ "general" 9,
        author := ⟨"u", "0001", 5⟩, created_at := ⟨2020, 5, 1, 0, 0, 0⟩,
        edited_at := none, clean_content := "hi", attachments := [] }
      { id := 1, channel := Channel.text ⟨"g", 42⟩ "general" 9,
        author := ⟨"u", "0001", 5⟩, created_at := ⟨2020, 5, 1, 0, 0, 0⟩,
        edited_at := some ⟨2020, 5, 1, 0, 1, 0⟩, clean_content := "hi",
        attachments := [] } = Except.ok [] ∧
    on_member_ban ⟨"logs", false, [42]⟩ (fun t => t) ⟨2020, 5, 1, 0, 0, 0⟩
      ⟨"g", 42⟩ ⟨"u", "0001", 5⟩ = Except.error (nameError "IGNORE_GUILDS") ∧
    on_member_unban ⟨"logs", false, [42]⟩ (fun t => t) ⟨2020, 5, 1, 0, 0, 0⟩
      ⟨"g", 42⟩ ⟨"u", "0001", 5⟩ = Except.error (nameError "IGNORE_GUILDS") ∧
    on_guild_available ⟨"logs", false, [42]⟩ (fun t => t) ⟨2020, 5, 1, 0, 0, 0⟩
      ⟨"g", 42⟩ = Except.error (nameError "IGNORE_GUILDS") ∧
    on_guild_unavailable ⟨"logs", false, [42]⟩ (fun t => t) ⟨2020, 5, 1, 0, 0, 0⟩
      ⟨"g", 42⟩ = Except.error (nameError "IGNORE_GUILDS") ∧
    on_guild_remove ⟨"logs", false, [42]⟩ (fun t => t) ⟨2020, 5, 1, 0, 0, 0⟩
      ⟨"g", 42⟩ = Except.error (nameError "IGNORE_GUILDS") ∧
    on_guild_add ⟨"logs", false, [42]⟩ (fun t => t) ⟨2020, 5, 1, 0, 0, 0⟩
      ⟨"g", 42⟩ = Except.error (nameError "IGNORE_GUILDS") :=
  ⟨rfl, rfl, rfl, rfl, rfl, rfl, rfl, rfl⟩

/-- Claim C8 fails on the code: `make_audit_filename` never returns a path of
any form, because its first statement evaluates `datetime.datetime.utcnow()`
and `datetime` is unbound (run.py imports only `timezone` from the datetime
module), raising `NameError` for guild add/remove events and for every other
audit kind alike. -/
theorem make_audit_filename_raises_nameerror :
    make_audit_filename ⟨"logs", false, []⟩ ⟨2020, 5, 1, 0, 0, 0⟩
      "on_guild_remove" ⟨"g", 7⟩ = Except.error (nameError "datetime") ∧
    make_audit_filename ⟨"logs", false, []⟩ ⟨2020, 5, 1, 0, 0, 0⟩
      "on_guild_add" ⟨"g", 7⟩ = Except.error (nameError "datetime") ∧
    make_audit_filename ⟨"logs", false, []⟩ ⟨2020, 5, 1, 0, 0, 0⟩
      "on_member_ban" ⟨"g", 7⟩ = Except.error (nameError "datetime") :=
  ⟨rfl, rfl, rfl⟩

/-- Claim C9 fails on the code in its formatter half: `make_filename` does
yield no path (a distinguishable `None`) on an unrecognized channel kind, but
`make_audit` and `make_audit_ban` raise `NameError` — an exception, not an
empty result — on an unrecognized event tag, and equally on recognized tags
instead of a populated line, because they evaluate the unbound name
`datetime` before reaching their tag dispatch. -/
theorem unrecognized_kind_formatter_behaviour :
    make_filename ⟨"logs", false, []⟩
      { id := 1, channel := Channel.other, author := ⟨"u", "0001", 5⟩,
        created_at := ⟨2020, 5, 1, 0, 0, 0⟩, edited_at := none,
        clean_content := "hi", attachments := [] } = none ∧
    make_audit ⟨"logs", false, []⟩ (fun t => t) ⟨2020, 5, 1, 0, 0, 0⟩
      "bogus_event" ⟨"g", 7⟩ = Except.error (nameError "datetime") ∧
    make_audit_ban ⟨"logs", false, []⟩ (fun t => t) ⟨2020, 5, 1, 0, 0, 0⟩
      "bogus_event" ⟨"g", 7⟩ ⟨"u", "0001", 5⟩ =
      Except.error (nameError "datetime") ∧
    make_audit ⟨"logs", false, []⟩ (fun t => t) ⟨2020, 5, 1, 0, 0, 0⟩
      "on_guild_add" ⟨"g", 7⟩ = Except.error (nameError "datetime") :=
  ⟨rfl, rfl, rfl, rfl⟩

end Panopticon
